import Mathlib

/-!
Shallow embedding of the ledger-consistency core of the envelope-budget
application (`src/budget_app/app.py`, `services.py`, `schemas.py`).

Monetary values are Python `Decimal`s; every finite `Decimal` is a rational
number and all the arithmetic the core performs on them (`+`, `-`, `*` by an
`int`) is exact, so `Money` is embedded as `ℚ`.  Exceptions become `Except`
values whose error constructors mirror the spec's error taxonomy at exactly
the places the source raises them (`ValueError` from `spend`/`deposit` ↦
`invalidAmount`, `ValueError` from `apply_funding` ↦ `invalidPeriodCount`,
`LookupError` from the services ↦ `notFound`).
-/

deriving instance DecidableEq for Except

/-- Error taxonomy of the core (spec §7), one constructor per raise site
family in the source. -/
inductive BudgetError where
  | invalidAmount
  | invalidPeriodCount
  | notFound
deriving DecidableEq, Repr

/-- `Transaction` model row (`app.py`): amount, optional note, and the
`type` discriminator string (`"spend"` or `"deposit"`).  `created_at` is a
wall-clock timestamp irrelevant to every claim and is omitted. -/
structure Transaction where
  amount : ℚ
  note : Option String
  type : String
deriving DecidableEq, Repr

/-- `Envelope` model row (`app.py`): the `id` primary key is kept outside
the record (in the database association list) exactly as SQLAlchemy keeps
it orthogonal to the mapped columns used by the domain methods.
`archived_at` is `Option ℤ` (a timestamp or SQL NULL). -/
structure Envelope where
  name : String
  balance : ℚ
  base_amount : ℚ
  mode : String
  is_active : Bool
  archived_at : Option ℤ
  transactions : List Transaction
deriving DecidableEq, Repr

/-- `Envelope.spend` (`app.py:83-89`): raise `ValueError` ("Spend amount
must be positive.") when `amount <= 0`, else subtract from the balance and
append one `spend` transaction. -/
def Envelope.spend (e : Envelope) (amount : ℚ) (note : Option String) :
    Except BudgetError Envelope :=
  if amount ≤ 0 then .error .invalidAmount
  else .ok { e with
    balance := e.balance - amount,
    transactions := e.transactions ++ [⟨amount, note, "spend"⟩] }

/-- `Envelope.deposit` (`app.py:91-97`): raise `ValueError` when
`amount <= 0`, else add to the balance and append one `deposit`
transaction. -/
def Envelope.deposit (e : Envelope) (amount : ℚ) (note : Option String) :
    Except BudgetError Envelope :=
  if amount ≤ 0 then .error .invalidAmount
  else .ok { e with
    balance := e.balance + amount,
    transactions := e.transactions ++ [⟨amount, note, "deposit"⟩] }

/-- `Envelope.apply_funding` (`app.py:99-105`): raise `ValueError`
("Funding months must be positive.") when `months <= 0`; if `mode ==
"reset"` set the balance to `base_amount`; in every other case (a plain
`else`, with no exhaustiveness check over the mode) add
`base_amount * months` to the balance. -/
def Envelope.apply_funding (e : Envelope) (months : ℤ) :
    Except BudgetError Envelope :=
  if months ≤ 0 then .error .invalidPeriodCount
  else if e.mode = "reset" then .ok { e with balance := e.base_amount }
  else .ok { e with balance := e.balance + e.base_amount * months }

/-- `Envelope.archive` (`app.py:107-109`): record the archival time only
when `archived_at` is still NULL; otherwise do nothing.  `now` is the value
`datetime.now(timezone.utc)` would produce at the call. -/
def Envelope.archive (e : Envelope) (now : ℤ) : Envelope :=
  if e.archived_at = none then { e with archived_at := some now } else e

/-- The successful result of `apply_funding` for a positive month count:
the per-mode balance update of `app.py:102-105`. -/
def fundedEnvelope (months : ℤ) (e : Envelope) : Envelope :=
  if e.mode = "reset" then { e with balance := e.base_amount }
  else { e with balance := e.balance + e.base_amount * months }

theorem apply_funding_pos (e : Envelope) (months : ℤ) (h : 0 < months) :
    e.apply_funding months = .ok (fundedEnvelope months e) := by
  unfold Envelope.apply_funding fundedEnvelope
  rw [if_neg (by omega)]
  by_cases hm : e.mode = "reset" <;> simp [hm]

example : (Envelope.spend ⟨"Dining", 50, 50, "reset", true, none, []⟩
    (617/50) none).map Envelope.balance = .ok (1883/50) := by
  norm_num [Envelope.spend, Except.map]

/-- `SystemState` model row (`app.py:122-124`): the funding watermark. -/
structure SystemState where
  last_funded_month : String
deriving DecidableEq, Repr

/-- The persisted database visible to the core: the envelope table as an
association list from primary key to row, and the (at most one)
`SystemState` row. -/
structure Db where
  envelopes : List (ℕ × Envelope)
  state : Option SystemState
deriving DecidableEq, Repr

/-- `db.session.get(Envelope, envelope_id)` (`services.py`). -/
def lookupEnvelope (db : Db) (envelope_id : ℕ) : Option Envelope :=
  db.envelopes.lookup envelope_id

/-- Committing a mutation of the row `envelope_id` back to the table. -/
def updateEnvelope (db : Db) (envelope_id : ℕ) (e : Envelope) : Db :=
  { db with envelopes :=
      db.envelopes.map (fun p => if p.1 = envelope_id then (p.1, e) else p) }

/-- `services.spend` (`services.py:23-29`): look the envelope up, raising
`LookupError` ("Envelope not found.") when absent; delegate to
`Envelope.spend` (which validates before mutating anything); only then
commit.  The second component is the persisted state after the call: the
commit is reached only when nothing raised, so on every error path it is
the unchanged input database. -/
def services.spend (db : Db) (envelope_id : ℕ) (amount : ℚ)
    (note : Option String) : Except BudgetError Envelope × Db :=
  match lookupEnvelope db envelope_id with
  | none => (.error .notFound, db)
  | some envelope =>
    match envelope.spend amount note with
    | .error err => (.error err, db)
    | .ok e2 => (.ok e2, updateEnvelope db envelope_id e2)

/-- `services.deposit` (`services.py:32-38`), symmetric to
`services.spend`. -/
def services.deposit (db : Db) (envelope_id : ℕ) (amount : ℚ)
    (note : Option String) : Except BudgetError Envelope × Db :=
  match lookupEnvelope db envelope_id with
  | none => (.error .notFound, db)
  | some envelope =>
    match envelope.deposit amount note with
    | .error err => (.error err, db)
    | .ok e2 => (.ok e2, updateEnvelope db envelope_id e2)

/-- Python `"...".split("-")` on the character list of the string:
splits at every `'-'`, keeping empty pieces, and yields one piece even on
the empty string. -/
def splitOnDash : List Char → List (List Char)
  | [] => [[]]
  | c :: rest =>
    match splitOnDash rest, decide (c = '-') with
    | r, true => [] :: r
    | g :: gs, false => (c :: g) :: gs
    | [], false => [[c]]

/-- Python `int(piece)` on the pieces `"YYYY"` / `"MM"` produced by the
split: an optional leading minus sign followed by at least one decimal
digit; anything else raises `ValueError` (`none`). -/
def digitsToNat : List Char → Option ℕ
  | [] => some 0
  | c :: rest =>
    if '0' ≤ c ∧ c ≤ '9' then
      (digitsToNat rest).map (fun n => (c.toNat - 48) * 10 ^ rest.length + n)
    else none

def intOfChars : List Char → Option ℤ
  | [] => none
  | '-' :: rest =>
    if rest = [] then none else (digitsToNat rest).map (fun n => -(n : ℤ))
  | cs => (digitsToNat cs).map (fun n => (n : ℤ))

/-- `map(int, month.split("-"))` unpacked into exactly two values, as in
`_month_difference` (`app.py:321-322`); `none` when Python would raise. -/
def parseMonth (s : String) : Option (ℤ × ℤ) :=
  match splitOnDash s.data with
  | [y, m] =>
    match intOfChars y, intOfChars m with
    | some yi, some mi => some (yi, mi)
    | _, _ => none
  | _ => none

/-- `_month_difference` (`app.py:320-323`). -/
def month_difference (start_month end_month : String) : Option ℤ :=
  match parseMonth start_month, parseMonth end_month with
  | some (sy, sm), some (ey, em) => some ((ey - sy) * 12 + (em - sm))
  | _, _ => none

/-- The `for env in envelopes: env.apply_funding(months=month_gap)` loop of
`sync_funding` (`app.py:340-341`): fund each row in order, aborting on the
first exception. -/
def fundAll (months : ℤ) :
    List (ℕ × Envelope) → Except BudgetError (List (ℕ × Envelope))
  | [] => .ok []
  | p :: rest =>
    match p.2.apply_funding months with
    | .error err => .error err
    | .ok e2 =>
      match fundAll months rest with
      | .error err => .error err
      | .ok rest2 => .ok ((p.1, e2) :: rest2)

/-- `sync_funding` (`app.py:326-343`) with the current month
(`get_current_month()`) passed in.  `none` is an escaping exception (a
malformed month string in `_month_difference`, or `apply_funding`
raising).  First run: create the watermark row and return.  Non-positive
gap: return with nothing touched.  Otherwise fund every envelope (archived
or not — the query has no filter), advance the watermark, and commit. -/
def sync_funding (current_month : String) (db : Db) : Option Db :=
  match db.state with
  | none => some { db with state := some ⟨current_month⟩ }
  | some state =>
    match month_difference state.last_funded_month current_month with
    | none => none
    | some month_gap =>
      if month_gap ≤ 0 then some db
      else
        match fundAll month_gap db.envelopes with
        | .error _ => none
        | .ok envs => some { envelopes := envs, state := some ⟨current_month⟩ }

example : parseMonth "2025-01" = some (2025, 1) := by decide
example : month_difference "2025-01" "2025-03" = some 2 := by decide

/-- The value `Decimal(str(raw))` produces inside `_parse_amount`
(`schemas.py:9-17`): a finite decimal number (every finite `Decimal` is a
rational), a quiet NaN, a signed infinity, or a string the constructor
rejects (raising, which the surrounding `try` converts to
`ValueError("Amount must be a number.")`). -/
inductive RawDecimal where
  | finite (q : ℚ)
  | nan
  | inf (positive : Bool)
  | malformed (s : String)
deriving DecidableEq, Repr

/-- A `Decimal` as returned by `_parse_amount`: `quantize` propagates a
quiet NaN operand unchanged, so the result is not always finite. -/
inductive DecValue where
  | finite (q : ℚ)
  | nan
deriving DecidableEq, Repr

/-- How `_parse_amount` can fail: the `ValueError` it raises itself
(mapped to `InvalidAmount` by the callers), or a `decimal.InvalidOperation`
escaping from `value.quantize(...)`, which sits outside the `try` block. -/
inductive ParseFailure where
  | invalidAmount
  | invalidOperation
deriving DecidableEq, Repr

/-- `value.quantize(Decimal("0.01"), rounding=ROUND_HALF_UP)` on a finite
value, expressed in cents: round to the nearest integer number of cents
with ties away from zero. -/
def roundHalfUpCents (q : ℚ) : ℤ :=
  if 0 ≤ q then ⌊100 * q + 1 / 2⌋ else -⌊-(100 * q) + 1 / 2⌋

/-- `_parse_amount` (`schemas.py:9-17`).  The quantize step runs under the
default decimal context (precision 28): a finite result whose coefficient
needs more than 28 digits, or an infinite operand, raises
`decimal.InvalidOperation`; a NaN operand is returned as NaN without an
error; only the `Decimal` constructor's failure is caught and re-raised as
the `ValueError` the spec calls `InvalidAmount`. -/
def parse_amount : RawDecimal → Except ParseFailure DecValue
  | .malformed _ => .error .invalidAmount
  | .nan => .ok .nan
  | .inf _ => .error .invalidOperation
  | .finite q =>
    if (roundHalfUpCents q).natAbs < 10 ^ 28 then
      .ok (.finite ((roundHalfUpCents q : ℚ) / 100))
    else .error .invalidOperation

/-- A concrete envelope used by the witnesses below. -/
def sampleEnvelope : Envelope :=
  { name := "Dining", balance := 50, base_amount := 50, mode := "reset",
    is_active := true, archived_at := none, transactions := [] }

/-- C1: `applyFunding(periods)` fails with `InvalidPeriodCount` when
`periods ≤ 0`; otherwise a Reset-mode envelope's balance becomes exactly
`base_amount` whatever `periods` is, and a Rollover-mode envelope's balance
becomes the prior balance plus `base_amount * periods`. -/
theorem apply_funding_correct (e : Envelope) (periods : ℤ) :
    (periods ≤ 0 → e.apply_funding periods = .error .invalidPeriodCount) ∧
    (0 < periods → e.mode = "reset" →
      e.apply_funding periods = .ok { e with balance := e.base_amount }) ∧
    (0 < periods → e.mode = "rollover" →
      e.apply_funding periods =
        .ok { e with balance := e.balance + e.base_amount * periods }) := by
  refine ⟨fun h => ?_, fun h hm => ?_, fun h hm => ?_⟩ <;>
    unfold Envelope.apply_funding
  · rw [if_pos h]
  · rw [if_neg (by omega), if_pos hm]
  · rw [if_neg (by omega), if_neg (by rw [hm]; decide)]

/-- Witness for C1 at concrete inputs: periods = 3 on a Reset envelope
resets to the base amount (not 3×), on a Rollover envelope adds 7 × 3, and
periods = 0 fails. -/
theorem apply_funding_correct_witness :
    Envelope.apply_funding ⟨"a", 5, 7, "reset", true, none, []⟩ 3 =
      .ok ⟨"a", 7, 7, "reset", true, none, []⟩ ∧
    Envelope.apply_funding ⟨"a", 5, 7, "rollover", true, none, []⟩ 3 =
      .ok ⟨"a", 26, 7, "rollover", true, none, []⟩ ∧
    Envelope.apply_funding ⟨"a", 5, 7, "reset", true, none, []⟩ 0 =
      .error .invalidPeriodCount := by
  refine ⟨?_, ?_, ?_⟩
  · have h := (apply_funding_correct ⟨"a", 5, 7, "reset", true, none, []⟩ 3).2.1
      (by norm_num) rfl
    rw [h]
  · have h := (apply_funding_correct
      ⟨"a", 5, 7, "rollover", true, none, []⟩ 3).2.2 (by norm_num) rfl
    rw [h]; norm_num
  · exact (apply_funding_correct ⟨"a", 5, 7, "reset", true, none, []⟩ 0).1 le_rfl

/-- C2: `spend` and `deposit` fail with `InvalidAmount` exactly when the
amount is ≤ 0; on success `spend` subtracts the amount and appends one
Spend transaction with it, `deposit` adds the amount and appends one
Deposit transaction with it; and there is no lower bound on the balance a
successful spend can reach. -/
theorem spend_deposit_correct (e : Envelope) (a : ℚ) (note : Option String) :
    (e.spend a note = .error .invalidAmount ↔ a ≤ 0) ∧
    (e.deposit a note = .error .invalidAmount ↔ a ≤ 0) ∧
    (0 < a → e.spend a note = .ok { e with
      balance := e.balance - a,
      transactions := e.transactions ++ [⟨a, note, "spend"⟩] }) ∧
    (0 < a → e.deposit a note = .ok { e with
      balance := e.balance + a,
      transactions := e.transactions ++ [⟨a, note, "deposit"⟩] }) ∧
    (∀ L : ℚ, ∃ b : ℚ, 0 < b ∧
      ∀ e2, e.spend b note = .ok e2 → e2.balance < L) := by
  refine ⟨?_, ?_, fun h => ?_, fun h => ?_, fun L => ?_⟩
  · by_cases h : a ≤ 0 <;> simp [Envelope.spend, h]
  · by_cases h : a ≤ 0 <;> simp [Envelope.deposit, h]
  · rw [Envelope.spend, if_neg (by linarith)]
  · rw [Envelope.deposit, if_neg (by linarith)]
  · refine ⟨max 1 (e.balance - L + 1),
      lt_of_lt_of_le one_pos (le_max_left _ _), fun e2 h2 => ?_⟩
    rw [Envelope.spend,
      if_neg (not_le.mpr (lt_of_lt_of_le one_pos (le_max_left _ _)))] at h2
    have hb := le_max_right 1 (e.balance - L + 1)
    have h3 := Except.ok.inj h2
    rw [← h3]
    simp only []
    linarith

/-- Witness for C2 at concrete inputs: spend(0.00), spend(-1.00) and
deposit(0.00) fail with `InvalidAmount`; spend(12.34) on a 50.00 balance
leaves 37.66 and logs one Spend transaction of 12.34. -/
theorem spend_deposit_correct_witness :
    sampleEnvelope.spend 0 none = .error .invalidAmount ∧
    sampleEnvelope.spend (-1) none = .error .invalidAmount ∧
    sampleEnvelope.deposit 0 none = .error .invalidAmount ∧
    sampleEnvelope.spend (617/50) none = .ok { sampleEnvelope with
      balance := 1883/50,
      transactions := [⟨617/50, none, "spend"⟩] } := by
  refine ⟨?_, ?_, ?_, ?_⟩
  · exact (spend_deposit_correct sampleEnvelope 0 none).1.mpr le_rfl
  · exact (spend_deposit_correct sampleEnvelope (-1) none).1.mpr (by norm_num)
  · exact (spend_deposit_correct sampleEnvelope 0 none).2.1.mpr le_rfl
  · have h := (spend_deposit_correct sampleEnvelope (617/50) none).2.2.1
      (by norm_num)
    rw [h]; norm_num [sampleEnvelope]

/-- C6: for every positive amount, `spend(a)` followed by `deposit(a)`
succeeds and restores the original balance exactly. -/
theorem spend_deposit_roundtrip (e : Envelope) (a : ℚ)
    (n1 n2 : Option String) (h : 0 < a) :
    ∃ e1 e2, e.spend a n1 = .ok e1 ∧ e1.deposit a n2 = .ok e2 ∧
      e2.balance = e.balance := by
  refine ⟨{ e with
      balance := e.balance - a,
      transactions := e.transactions ++ [⟨a, n1, "spend"⟩] },
    { e with
      balance := e.balance - a + a,
      transactions := (e.transactions ++ [⟨a, n1, "spend"⟩]) ++
        [⟨a, n2, "deposit"⟩] }, ?_, ?_, ?_⟩
  · rw [Envelope.spend, if_neg (by linarith)]
  · rw [Envelope.deposit, if_neg (by linarith)]
  · simp only []
    ring

/-- Witness for C6: spending then depositing 12.34 on a 50.00 balance ends
back at 50.00. -/
theorem spend_deposit_roundtrip_witness :
    ∃ e1 e2, sampleEnvelope.spend (617/50) none = .ok e1 ∧
      e1.deposit (617/50) none = .ok e2 ∧ e2.balance = 50 :=
  spend_deposit_roundtrip sampleEnvelope (617/50) none none (by norm_num)

/-- C9: `archive()` on a not-yet-archived envelope records the archival
time; on an already-archived envelope it is a no-op (never an error, the
recorded time kept); so archiving twice equals archiving once. -/
theorem archive_idempotent (e : Envelope) (t1 t2 : ℤ) :
    (e.archived_at = none →
      e.archive t1 = { e with archived_at := some t1 }) ∧
    (∀ t0, e.archived_at = some t0 → e.archive t2 = e) ∧
    (e.archive t1).archive t2 = e.archive t1 := by
  refine ⟨fun h => ?_, fun t0 h => ?_, ?_⟩
  · simp [Envelope.archive, h]
  · simp [Envelope.archive, h]
  · cases he : e.archived_at with
    | none => simp [Envelope.archive, he]
    | some t0 => simp [Envelope.archive, he]

/-- Witness for C9: archiving an unarchived envelope at time 100 records
100; archiving it again at time 200 changes nothing. -/
theorem archive_idempotent_witness :
    sampleEnvelope.archive 100 =
      { sampleEnvelope with archived_at := some 100 } ∧
    (sampleEnvelope.archive 100).archive 200 = sampleEnvelope.archive 100 :=
  ⟨(archive_idempotent sampleEnvelope 100 200).1 rfl,
   (archive_idempotent sampleEnvelope 100 200).2.2⟩

/-- C10: `apply_funding` is not exhaustive over the mode enum: any mode
string other than `"reset"` (modes are only validated at creation time, in
`services.add_envelope`) takes the `else` branch and behaves as Rollover. -/
theorem apply_funding_nonreset (e : Envelope) (months : ℤ)
    (hm : e.mode ≠ "reset") (h : 0 < months) :
    e.apply_funding months =
      .ok { e with balance := e.balance + e.base_amount * months } := by
  rw [Envelope.apply_funding, if_neg (by omega), if_neg hm]

/-- Witness for C10: an envelope whose mode is the out-of-enum string
"weird" is funded additively like Rollover. -/
theorem apply_funding_nonreset_witness :
    Envelope.apply_funding ⟨"a", 5, 7, "weird", true, none, []⟩ 2 =
      .ok ⟨"a", 19, 7, "weird", true, none, []⟩ := by
  have h := apply_funding_nonreset ⟨"a", 5, 7, "weird", true, none, []⟩ 2
    (by decide) (by norm_num)
  rw [h]; norm_num

/-- A concrete two-row database used by the witnesses below: a Reset
envelope and an archived Rollover envelope, last funded in January 2025. -/
def sampleDb : Db :=
  { envelopes :=
      [(1, ⟨"groceries", 250, 1000, "reset", true, none, []⟩),
       (2, ⟨"savings", 0, 200, "rollover", true, some 5, []⟩)],
    state := some ⟨"2025-01"⟩ }

/-- C8: the service-layer operations fail with `NotFound` on an unknown
envelope id, and are atomic: whenever they fail (NotFound or
InvalidAmount) the persisted database after the call is exactly the
database before it — no balance, transaction or state change survives. -/
theorem services_atomic (db : Db) (envelope_id : ℕ) (a : ℚ)
    (note : Option String) :
    (lookupEnvelope db envelope_id = none →
      services.spend db envelope_id a note = (.error .notFound, db) ∧
      services.deposit db envelope_id a note = (.error .notFound, db)) ∧
    (∀ err, (services.spend db envelope_id a note).1 = .error err →
      (services.spend db envelope_id a note).2 = db) ∧
    (∀ err, (services.deposit db envelope_id a note).1 = .error err →
      (services.deposit db envelope_id a note).2 = db) := by
  refine ⟨fun h => ?_, fun err h => ?_, fun err h => ?_⟩
  · exact ⟨by simp [services.spend, h], by simp [services.deposit, h]⟩
  · cases hl : lookupEnvelope db envelope_id with
    | none => simp [services.spend, hl]
    | some envelope =>
      cases hs : envelope.spend a note with
      | error e => simp [services.spend, hl, hs]
      | ok e2 => simp [services.spend, hl, hs] at h
  · cases hl : lookupEnvelope db envelope_id with
    | none => simp [services.deposit, hl]
    | some envelope =>
      cases hs : envelope.deposit a note with
      | error e => simp [services.deposit, hl, hs]
      | ok e2 => simp [services.deposit, hl, hs] at h

/-- Witness for C8: on the sample database, spending from the unknown id 9
fails with NotFound leaving the database unchanged, and spending a
non-positive amount from the existing id 1 also leaves it unchanged. -/
theorem services_atomic_witness :
    services.spend sampleDb 9 10 none = (.error .notFound, sampleDb) ∧
    (services.spend sampleDb 1 0 none).2 = sampleDb := by
  constructor
  · exact ((services_atomic sampleDb 9 10 none).1 (by decide)).1
  · exact (services_atomic sampleDb 1 0 none).2.1 .invalidAmount
      (by simp [services.spend, lookupEnvelope, sampleDb, Envelope.spend])

/-- C5: on first run (no `SystemState` row), `sync_funding` creates the
watermark row at the current month and returns without funding: the
envelope table — every balance and transaction list — is untouched. -/
theorem sync_funding_first_run (db : Db) (m : String) (h : db.state = none) :
    sync_funding m db =
      some { envelopes := db.envelopes, state := some ⟨m⟩ } := by
  simp [sync_funding, h]

/-- Witness for C5: a first `sync_funding` at month 2025-06 only writes
the watermark; the two sample envelopes keep balances 250 and 0 and empty
transaction logs. -/
theorem sync_funding_first_run_witness :
    sync_funding "2025-06" { envelopes := sampleDb.envelopes, state := none }
      = some { envelopes := sampleDb.envelopes, state := some ⟨"2025-06"⟩ } :=
  sync_funding_first_run
    { envelopes := sampleDb.envelopes, state := none } "2025-06" rfl

theorem fundAll_pos (months : ℤ) (h : 0 < months)
    (l : List (ℕ × Envelope)) :
    fundAll months l =
      .ok (l.map (fun p => (p.1, fundedEnvelope months p.2))) := by
  induction l with
  | nil => rfl
  | cons p rest ih =>
    simp [fundAll, apply_funding_pos p.2 months h, ih]

/-- C3: when a `SystemState` exists and the whole-month gap to the current
month is positive, `sync_funding` applies `apply_funding` with that gap to
every envelope row (archived or not) and advances the watermark. -/
theorem sync_funding_catch_up (db : Db) (st : SystemState) (m : String)
    (gap : ℤ) (hs : db.state = some st)
    (hg : month_difference st.last_funded_month m = some gap)
    (hpos : 0 < gap) :
    sync_funding m db = some
      { envelopes := db.envelopes.map (fun p => (p.1, fundedEnvelope gap p.2)),
        state := some ⟨m⟩ } := by
  simp [sync_funding, hs, hg, fundAll_pos gap hpos,
    show ¬gap ≤ 0 by omega]

/-- Witness for C3, the catch-up example: watermark 2025-01, current month
2025-03, gap 2; the Reset envelope (base 1000.00) ends at exactly 1000.00
and the archived Rollover envelope (base 200.00, balance 0.00) at 400.00,
with the watermark advanced to 2025-03. -/
theorem sync_funding_catch_up_witness :
    sync_funding "2025-03" sampleDb = some
      { envelopes :=
          [(1, ⟨"groceries", 1000, 1000, "reset", true, none, []⟩),
           (2, ⟨"savings", 400, 200, "rollover", true, some 5, []⟩)],
        state := some ⟨"2025-03"⟩ } := by
  have h := sync_funding_catch_up sampleDb ⟨"2025-01"⟩ "2025-03" 2 rfl
    (by decide) (by norm_num)
  rw [h]
  norm_num [sampleDb, fundedEnvelope]
  decide

theorem month_difference_self (m : String) (p : ℤ × ℤ)
    (h : parseMonth m = some p) : month_difference m m = some 0 := by
  obtain ⟨y, mo⟩ := p
  simp [month_difference, h]

/-- C4: `sync_funding` is idempotent within a period: a non-positive
whole-month gap (including a negative one from a clock moved backward)
returns with neither envelopes nor state modified, and a second call with
the same current month reproduces the state left by the first call. -/
theorem sync_funding_idempotent :
    (∀ (db : Db) (st : SystemState) (m : String) (gap : ℤ),
      db.state = some st →
      month_difference st.last_funded_month m = some gap →
      gap ≤ 0 → sync_funding m db = some db) ∧
    (∀ (db db2 : Db) (m : String), (parseMonth m).isSome →
      sync_funding m db = some db2 → sync_funding m db2 = some db2) := by
  constructor
  · intro db st m gap hs hg hle
    simp [sync_funding, hs, hg, hle]
  · intro db db2 m hp h
    obtain ⟨p, hp⟩ := Option.isSome_iff_exists.mp hp
    cases hst : db.state with
    | none =>
      simp only [sync_funding, hst] at h
      have hd := Option.some.inj h
      subst hd
      simp [sync_funding, month_difference_self m p hp]
    | some st =>
      simp only [sync_funding, hst] at h
      cases hg : month_difference st.last_funded_month m with
      | none => simp [hg] at h
      | some gap =>
        simp only [hg] at h
        by_cases hle : gap ≤ 0
        · rw [if_pos hle] at h
          have hd := Option.some.inj h
          subst hd
          simp [sync_funding, hst, hg, hle]
        · rw [if_neg hle] at h
          cases hf : fundAll gap db.envelopes with
          | error e => simp [hf] at h
          | ok envs =>
            simp only [hf] at h
            have hd := Option.some.inj h
            subst hd
            simp [sync_funding, month_difference_self m p hp]

/-- Witness for C4: a zero gap (watermark already at 2025-01) leaves the
sample database untouched, and re-running `sync_funding` for 2025-06 after
a first run for 2025-06 reproduces the first run's result. -/
theorem sync_funding_idempotent_witness :
    sync_funding "2025-01" sampleDb = some sampleDb ∧
    sync_funding "2025-06"
      { envelopes := sampleDb.envelopes, state := some ⟨"2025-06"⟩ } =
      some { envelopes := sampleDb.envelopes, state := some ⟨"2025-06"⟩ } := by
  constructor
  · exact sync_funding_idempotent.1 sampleDb ⟨"2025-01"⟩ "2025-01" 0 rfl
      (by decide) le_rfl
  · exact sync_funding_idempotent.2
      { envelopes := sampleDb.envelopes, state := none }
      { envelopes := sampleDb.envelopes, state := some ⟨"2025-06"⟩ }
      "2025-06" (by decide) (by simp [sync_funding])

/-- C7 counterexample: the inputs `"Infinity"` and `"NaN"` are not
parseable as monetary amounts, yet `_parse_amount` does not fail with
`InvalidAmount` on them: `Decimal("Infinity")` constructs fine and its
`quantize` raises `decimal.InvalidOperation` — a different failure, since
the quantize call sits outside the `try` — while `Decimal("NaN")` is
propagated by `quantize` and returned without any failure (and without
being quantized to 2 decimal places). -/
theorem parse_amount_counterexample :
    parse_amount (.inf true) = .error .invalidOperation ∧
    ParseFailure.invalidOperation ≠ ParseFailure.invalidAmount ∧
    parse_amount .nan = .ok .nan := by
  refine ⟨rfl, by decide, rfl⟩

/-- C7 amended: `_parse_amount` fails with `InvalidAmount` exactly for raw
strings the `Decimal` constructor rejects; every successfully parsed
finite value whose quantized coefficient fits the context precision of 28
digits is quantized to 2 decimal places by round-half-up (the nearest
multiple of 0.01, ties away from zero); but a NaN is returned unquantized
without failure, and an infinity — or a finite value whose quantized
coefficient exceeds 28 digits — raises `decimal.InvalidOperation`, which
is not `InvalidAmount`. -/
theorem parse_amount_amended :
    (∀ s, parse_amount (.malformed s) = .error .invalidAmount) ∧
    parse_amount .nan = .ok .nan ∧
    (∀ b, parse_amount (.inf b) = .error .invalidOperation) ∧
    (∀ q : ℚ, (roundHalfUpCents q).natAbs < 10 ^ 28 →
      parse_amount (.finite q) =
        .ok (.finite ((roundHalfUpCents q : ℚ) / 100))) ∧
    (∀ q : ℚ, 10 ^ 28 ≤ (roundHalfUpCents q).natAbs →
      parse_amount (.finite q) = .error .invalidOperation) ∧
    (∀ q : ℚ, 0 ≤ q → -(1/2 : ℚ) < (roundHalfUpCents q : ℚ) - 100 * q ∧
      (roundHalfUpCents q : ℚ) - 100 * q ≤ 1/2) ∧
    (∀ q : ℚ, q ≤ 0 → -(1/2 : ℚ) ≤ (roundHalfUpCents q : ℚ) - 100 * q ∧
      (roundHalfUpCents q : ℚ) - 100 * q < 1/2) := by
  refine ⟨fun s => rfl, rfl, fun b => rfl, fun q hq => ?_, fun q hq => ?_,
    fun q h => ?_, fun q h => ?_⟩
  · rw [parse_amount, if_pos hq]
  · rw [parse_amount, if_neg (by omega)]
  · rw [roundHalfUpCents, if_pos h]
    have h1 := Int.floor_le (100 * q + 1 / 2)
    have h2 := Int.lt_floor_add_one (100 * q + 1 / 2)
    constructor <;> push_cast at h1 h2 ⊢ <;> linarith
  · rw [roundHalfUpCents]
    by_cases h0 : 0 ≤ q
    · have hq0 : q = 0 := le_antisymm h h0
      subst hq0
      rw [if_pos le_rfl]
      norm_num
    · rw [if_neg h0]
      have h1 := Int.floor_le (-(100 * q) + 1 / 2)
      have h2 := Int.lt_floor_add_one (-(100 * q) + 1 / 2)
      constructor <;> push_cast at h1 h2 ⊢ <;> linarith

/-- Witness for C7 (amended): 0.125 parses to exactly 0.13 (half rounded
up, to two places), and a rejected string parses to `InvalidAmount`. -/
theorem parse_amount_amended_witness :
    parse_amount (.finite (1/8)) = .ok (.finite (13/100)) ∧
    parse_amount (.malformed "abc") = .error .invalidAmount := by
  have hc : roundHalfUpCents (1/8) = 13 := by
    rw [roundHalfUpCents, if_pos (by norm_num)]
    norm_num
  constructor
  · have h := parse_amount_amended.2.2.2.1 (1/8) (by rw [hc]; norm_num)
    rw [h, hc]
    norm_num
  · exact parse_amount_amended.1 "abc"
